import Mathlib

/-!
# Verification of the Region subsystem of the starlink AST excerpt

This file gives a shallow embedding of the Region core found in
`src/region.c` and settles the claims about it.  External collaborator
objects (Frames, Mappings, PointSets) are modelled as structures carrying
the data the Region code actually inspects; collaborator *operations*
that live outside `src/` (astConvert, astRegMesh + astTransform
classification, astRegPins, astCmpMap, astAxDistance, astResample, ...)
are collected in an oracle bundle `Geom` supplied as a parameter, exactly
as the spec treats them ("assumed as already-correct collaborators").

C `double` values are modelled as exact rationals.  All functions model
the execution path on which the global error status is initially clear
(`astOK`); an error raised during a call is represented by an explicit
error-code value in the result, and the AST convention that every
operation becomes a no-op once the status is set is reflected by
short-circuiting the translation at the point of the error.
-/

namespace StarAst

/-- An AST Frame as seen by the Region code: an identity (used by the
`astEqual` collaborator) and its axis count (`astGetNaxes`). -/
structure AstFrame where
  fid : Nat
  naxes : Nat
deriving DecidableEq, Repr

/-- An AST PointSet as seen by the Region code: an identity used by the
`astEqual` collaborator. -/
structure AstPointSet where
  psid : Nat
deriving DecidableEq, Repr

/-- An AST Mapping as seen by the Region code: an identity (for
`astEqual`), its input/output axis counts (`astGetNin`/`astGetNout`),
its transformation-direction flags (`astGetTranForward` /
`astGetTranInverse`), and a flag recording whether `astSimplify` would
reduce it to a UnitMap (used only by the spec-side predicate of C3). -/
structure AstMapping where
  mid : Nat
  nin : Nat
  nout : Nat
  tranForward : Bool
  tranInverse : Bool
  simplifiesToUnit : Bool
deriving DecidableEq, Repr

/-- An uncertainty Region (always a Box, Circle or Ellipse after a
successful `astSetUnc`).  It carries its class name, its effective
Negated flag, its boundedness in both negation polarities (the virtual
`astGetBounded`), and its RegionFS attribute. -/
structure UncRegion where
  cls : String
  negated : Bool
  boundedWhenPos : Bool
  boundedWhenNeg : Bool
  regionfs : Option Bool
deriving DecidableEq, Repr

/-- The Region structure of `region.c`.

The encapsulated FrameSet is modelled by its observables: the base
Frame, the current Frame and the base->current Mapping (these are
exactly the projections `Equal`, `OverlapX` and `MapRegion` read through
`astGetFrame`/`astGetMapping`).

`negated` and `closed` are tri-state ints in C (`-INT_MAX` when unset),
but every modelled function reads them through `astGetNegated` /
`astGetClosed`, which collapse the unset state to the documented default
(0 resp. 1); we therefore store the effective boolean value.
`meshsize` and `fillfactor` keep their unset state explicit because the
claims are about their defaults.

`boundedWhenPos` / `boundedWhenNeg` give the result of the virtual
`astGetBounded` for the two values of the effective Negated flag (the
base-class implementation at region.c:2667 is `!astGetNegated(this)`,
i.e. `boundedWhenPos = true`, `boundedWhenNeg = false`; shape subclasses
override it, so both flags are kept free).

`baseBox` is the output of the virtual shape primitive `astRegBaseBox`
(per-axis lower/upper bounds of the un-negated shape in the base
Frame). -/
structure AstRegion where
  cls : String
  points : Option AstPointSet
  bframe : AstFrame
  cframe : AstFrame
  bcmap : AstMapping
  negated : Bool
  closed : Bool
  meshsize : Option Int
  fillfactor : Option ℚ
  regionfs : Option Bool
  basemesh : Option AstPointSet
  unc : Option UncRegion
  defunc : Bool
  boundedWhenPos : Bool
  boundedWhenNeg : Bool
  baseBox : List (ℚ × ℚ)
deriving DecidableEq, Repr

/-- Error codes raised through the global error channel by the modelled
functions (astError calls in region.c). -/
inductive AstErrCode where
  /-- AST__NODEF: the Mapping given to astMapRegion has no inverse. -/
  | nodefInverse
  /-- AST__NODEF: the Mapping given to astMapRegion has no forward. -/
  | nodefForward
  /-- AST__NGDIN: Mapping input count does not match the Region axes. -/
  | ngdinMapIn
  /-- AST__NGDIN: Mapping output count does not match the grid dims. -/
  | ngdinMapOut
  /-- AST__NGDIN: grid dimension count does not match the Region axes. -/
  | ngdinDims
  /-- AST__GBDIN: a lower grid bound exceeds its upper bound. -/
  | gbdin
  /-- AST__ATSER: FillFactor value outside the range 0.0 to 1.0. -/
  | atser
  /-- AST__BADIN: uncertainty Region is not a Box, Circle or Ellipse. -/
  | badinClass
  /-- AST__BADIN/AST__NCPIN: uncertainty cannot be converted. -/
  | badinNoConv
  /-- AST__INTER: neither Region has a finite boundary. -/
  | inter
deriving DecidableEq, Repr

/-- The collaborator oracle bundle: operations the Region code
delegates to code outside `src/` (Mapping/Frame/PointSet machinery and
the shape-specific virtual primitives).  Each field is documented with
the C operation it stands for. -/
structure Geom where
  /-- `astCmpMap(a, b, 1, "")`: series composition of two Mappings. -/
  cmpMap : AstMapping → AstMapping → AstMapping
  /-- `astConvert(reg2, reg1, "")` succeeds (a conversion FrameSet
  between the two Regions' current Frames exists). -/
  convert : AstRegion → AstRegion → Bool
  /-- `astRegPins(reg1, mesh(reg2) mapped into reg1's base Frame, unc)`:
  all points of reg2's boundary mesh lie on reg1's boundary to within
  the joint uncertainty. -/
  regPins : AstRegion → AstRegion → Bool
  /-- Classification of reg2's boundary mesh after transforming it with
  reg1 used as a Mapping: the pair `(allgood, allbad)` computed by the
  loop at region.c:4814-4827 (no mesh point bad, every mesh point bad). -/
  meshFlags : AstRegion → AstRegion → Bool × Bool
  /-- Is the first point of reg1's boundary mesh set bad when
  transformed by reg2 used as a Mapping (region.c:4881)? -/
  firstMeshPtBad : AstRegion → AstRegion → Bool
  /-- `astAxDistance(frame, axis, v1, v2)`. -/
  axDist : AstFrame → Nat → ℚ → ℚ → ℚ
  /-- `astRegCurBox(region)`: bounding box (lower, upper per axis) of
  the Region in its current Frame. -/
  regCurBox : AstRegion → List ℚ × List ℚ
  /-- `Conv(unc->frameset, inverted this->frameset)` succeeds: the
  uncertainty Region can be converted to the base Frame of `this`. -/
  uncConv : UncRegion → AstRegion → Bool
  /-- `astMapRegion(unc, map, frm)`: the uncertainty Region mapped into
  the base Frame of its new parent. -/
  uncMapInto : UncRegion → AstRegion → UncRegion
  /-- Is the simplified base->current Mapping of the mapped uncertainty
  Region a UnitMap (region.c:6331-6333)? -/
  uncBCUnit : UncRegion → Bool
  /-- `astRegCentre(unc, NULL, ptr_reg, 0, AST__CURRENT)`: re-centre the
  uncertainty Region at the first defining point of its parent. -/
  uncRecentre : UncRegion → Option AstPointSet → UncRegion

/-! ## Attribute access (the astMAKE_GET / astMAKE_SET expansions)

The `astMAKE_*` wrapper macros themselves live in `object.h`, outside
`src/`; their uniform expansion (a setter assigns the macro's value
expression to the component, a getter returns the macro's expression) is
modelled from the spec's description of the attribute tri-state
pattern.  The value expressions below are the ones written in
`region.c`. -/

/-- `astGetNegated` (region.c:7650): the effective Negated flag (the C
tri-state `-INT_MAX` sentinel collapses to the default 0, which the
`negated` field of the model already incorporates). -/
def astGetNegated (r : AstRegion) : Bool := r.negated

/-- `astGetClosed` (region.c:7848): the effective Closed flag. -/
def astGetClosed (r : AstRegion) : Bool := r.closed

/-- `astNegate` (region.c:4294): toggle the Negated attribute,
`astSetNegated( this, astGetNegated( this ) ? 0 : 1 )`. -/
def astNegate (r : AstRegion) : AstRegion :=
  { r with negated := !astGetNegated r }

/-- `astGetBounded`: virtual; dispatches on the shape geometry and the
current effective Negated flag.  (The base-class implementation at
region.c:2667 is the special case `boundedWhenPos = true`,
`boundedWhenNeg = false`.) -/
def astGetBounded (r : AstRegion) : Bool :=
  if astGetNegated r then r.boundedWhenNeg else r.boundedWhenPos

/-! ## Equal (region.c:1990-2102) -/

/-- The private `Equal` function of region.c: same class (strcmp), equal
PointSets, equal base Frames, equal current Frames, equal base->current
Mappings, and the same effective Negated and Closed flags.  The
`astEqual` collaborator applied to PointSets, Frames and Mappings is
modelled as equality of the corresponding model values. -/
def Equal (thisR thatR : AstRegion) : Bool :=
  if thisR.cls = thatR.cls then
    if thisR.points = thatR.points then
      if thisR.bframe = thatR.bframe then
        if thisR.cframe = thatR.cframe then
          if thisR.bcmap = thatR.bcmap then
            decide (astGetNegated thisR = astGetNegated thatR) &&
              decide (astGetClosed thisR = astGetClosed thatR)
          else false
        else false
      else false
    else false
  else false

/-! ## OverlapX (region.c:4614-4926) and the public Overlap wrapper -/

/-- The final result remapping of OverlapX (region.c:4913-4919):
exchange the codes 2 and 3. -/
def swap23 (r : Int) : Int :=
  if r = 2 then 3 else if r = 3 then 2 else r

/-- The finite-boundary probe of OverlapX (region.c:4704-4716): test
`astGetBounded`, and if the Region is unbounded, negate it, test again
and restore.  Returns the flag together with the Region state after the
probe. -/
def boundedProbe (r : AstRegion) : Bool × AstRegion :=
  let b0 := astGetBounded r
  if !b0 then
    let r1 := astNegate r
    let b1 := astGetBounded r1
    (b1, astNegate r1)
  else (b0, r)

/-- Does the Region have a finite boundary, i.e. is it bounded in at
least one of the two negation polarities? -/
def finiteBoundary (r : AstRegion) : Bool :=
  astGetBounded r || astGetBounded (astNegate r)

/-- The mesh-classification core of OverlapX (region.c:4748-4902) after
`reg1`, `reg2` and `bnd1` have been chosen: find a conversion, test the
boundary-pinning fast path, then classify the pattern of bad axis
values in reg2's transformed mesh, falling back to a single point of
reg1's own mesh when all points are bad and reg1 is bounded.  Returns 0
when no conversion exists or on the internal sanity-check error. -/
def overlapCore (g : Geom) (reg1 reg2 : AstRegion) (bnd1 : Bool) : Int :=
  if g.convert reg2 reg1 then
    if g.regPins reg1 reg2 then
      if astGetBounded reg1 = astGetBounded reg2 then 5 else 6
    else
      let fl := g.meshFlags reg1 reg2
      let allgood := fl.1
      let allbad := fl.2
      if allgood then
        (if astGetBounded reg2 then 3 else 4)
      else if !allbad then 4
      else if !astGetBounded reg1 then
        (if astGetBounded reg2 then 1 else 2)
      else if !bnd1 then 0
      else
        (if g.firstMeshPtBad reg1 reg2 then 1 else 2)
  else 0

/-- `OverlapX( that, this )` (region.c:4614): the full overlap
classification.  Returns the result code together with the final states
of `this` and `that` (the function temporarily toggles their Negated
attributes).  The boolean recorded alongside `reg1`/`reg2` captures the
C pointer test `reg1 == that` used for the final 2/3 remapping. -/
def overlapX (g : Geom) (thatR thisR : AstRegion) :
    Int × AstRegion × AstRegion :=
  if Equal thisR thatR then (5, thisR, thatR)
  else
    let this1 := astNegate thisR
    let eqneg := Equal this1 thatR
    let this2 := astNegate this1
    if eqneg then (6, this2, thatR)
    else
      let pThis := boundedProbe this2
      let bndThis := pThis.1
      let this3 := pThis.2
      let pThat := boundedProbe thatR
      let bndThat := pThat.1
      let that1 := pThat.2
      if !bndThis && !bndThat then
        (0, this3, that1)
      else
        let sel : AstRegion × AstRegion × Bool × Bool :=
          if bndThat then (this3, that1, bndThis, false)
          else (that1, this3, bndThat, true)
        let reg1 := sel.1
        let reg2 := sel.2.1
        let bnd1 := sel.2.2.1
        let reg1IsThat := sel.2.2.2
        let result := overlapCore g reg1 reg2 bnd1
        let result2 := if reg1IsThat then swap23 result else result
        (result2, this3, that1)

/-- The public `astOverlap( this, that )` (region.c:4530-4612), which
invokes `astOverlapX( that, this )`.  The result code is the first
component; the final states of the two argument Regions are kept so
that attribute restoration can be stated. -/
def astOverlap (g : Geom) (thisR thatR : AstRegion) :
    Int × AstRegion × AstRegion :=
  overlapX g thatR thisR

/-! ## MapRegion (region.c:3597-3707) -/

/-- The value computed by `astMapRegion( this, map, frame )`: check
that the Mapping defines an inverse and a forward transformation
(region.c:3671-3679, raising AST__NODEF and returning NULL otherwise),
then take a deep copy and perform the FrameSet surgery: add `frame` as
the new current Frame connected to the old current Frame by `map`
(composing the base->current Mapping), remove the old current Frame,
and set the RegionFS attribute to 1 (region.c:3682-3699).  The FrameSet
is modelled by its base/current observables, on which the
add-then-remove pair acts as the replacement of the current Frame. -/
def mapRegionVal (g : Geom) (thisR : AstRegion) (map : AstMapping)
    (frame : AstFrame) : Except AstErrCode AstRegion :=
  if !map.tranInverse then .error .nodefInverse
  else if !map.tranForward then .error .nodefForward
  else .ok { thisR with
              cframe := frame,
              bcmap := g.cmpMap thisR.bcmap map,
              regionfs := some true }

/-- A heap of Region objects; a Region pointer is an index into it.
Used to state the deep-copy / no-mutation behaviour of astMapRegion. -/
def Store : Type := List AstRegion

/-- `astMapRegion` acting on the heap: the error checks happen before
`astCopy`, so on the error path nothing is allocated and the heap is
untouched; on the success path `astCopy` allocates a fresh object (a
deep copy of the input) and all FrameSet surgery is applied to that
fresh object only. -/
def mapRegionStore (g : Geom) (s : Store) (i : Nat) (map : AstMapping)
    (frame : AstFrame) : Store × Except AstErrCode Nat :=
  match List.get? s i with
  | none => (s, .error .nodefInverse)
  | some thisR =>
    match mapRegionVal g thisR map frame with
    | .error e => (s, .error e)
    | .ok r => (List.append s [r], .ok (List.length s))

/-! ## GetDefUnc (region.c:2739-2828) -/

/-- `astGetDefUnc( this )`: build the default uncertainty Box.  The
base-frame bounding box of the Region is obtained from the virtual
`astRegBaseBox` (the `baseBox` field); for every axis the box runs from
`0.0` to `0.5E-6 * astAxDistance( bfrm, i+1, lbnd[i], ubnd[i] )`, and
the Box is created with form 0, i.e. first point = centre (the origin)
and second point = a corner (region.c:2800-2814). -/
def getDefUnc (g : Geom) (thisR : AstRegion) : AstFrame × List ℚ × List ℚ :=
  let bfrm := thisR.bframe
  let nax := bfrm.naxes
  let lbnd := (List.range nax).map (fun _ => (0 : ℚ))
  let ubnd := (List.range nax).map (fun i =>
    (1 / 2000000 : ℚ) *
      g.axDist bfrm (i + 1) (thisR.baseBox.getD i (0, 0)).1
        (thisR.baseBox.getD i (0, 0)).2)
  (bfrm, lbnd, ubnd)

/-- The base-frame extent of the Region on axis `i`, as GetDefUnc
measures it: `astAxDistance` applied to the `astRegBaseBox` bounds. -/
def axExtent (g : Geom) (r : AstRegion) (i : Nat) : ℚ :=
  g.axDist r.bframe (i + 1) (r.baseBox.getD i (0, 0)).1
    (r.baseBox.getD i (0, 0)).2

/-- Squared bounding-box diagonal of a form-0 (centre + corner) Box:
the extent on each axis is twice the centre-to-corner offset. -/
def boxDiagSq (b : AstFrame × List ℚ × List ℚ) : ℚ :=
  ((b.2.1.zip b.2.2).map (fun pq => (2 * (pq.2 - pq.1)) ^ 2)).sum

/-- Squared base-frame bounding-box diagonal of a Region, with axis
extents measured the way GetDefUnc measures them. -/
def regionBaseDiagSq (g : Geom) (r : AstRegion) : ℚ :=
  ((List.range r.bframe.naxes).map (fun i => axExtent g r i ^ 2)).sum

/-! ## FillFactor and MeshSize attribute functions (region.c:7757-7810) -/

/-- `astSetFillFactor` (the astMAKE_SET value expression at
region.c:7761-7765): a value outside [0,1] raises AST__ATSER and the
assignment stores the old `this->fillfactor` back, leaving it
unchanged; otherwise the value is stored. -/
def setFillFactor (r : AstRegion) (value : ℚ) :
    AstRegion × Option AstErrCode :=
  if value < 0 || value > 1 then
    ({ r with fillfactor := r.fillfactor }, some .atser)
  else
    ({ r with fillfactor := some value }, none)

/-- `astGetFillFactor` (region.c:7758): the AST__BAD sentinel (modelled
by `none`) yields the default 1.0. -/
def getFillFactor (r : AstRegion) : ℚ :=
  match r.fillfactor with
  | none => 1
  | some v => v

/-- `astSetMeshSize` (region.c:7806-7808): annul the cached base mesh,
then store `value > 5 ? value : 5`. -/
def setMeshSize (r : AstRegion) (value : Int) : AstRegion :=
  { r with basemesh := none,
           meshsize := some (if value > 5 then value else 5) }

/-- `astGetMeshSize` (region.c:7810): the `-INT_MAX` sentinel (modelled
by `none`) yields 2 for 1 axis, 200 for 2 axes and 2000 otherwise;
`astGetNaxes` of a Region is the axis count of its current Frame. -/
def getMeshSize (r : AstRegion) : Int :=
  match r.meshsize with
  | none =>
    if r.cframe.naxes = 1 then 2
    else if r.cframe.naxes = 2 then 200
    else 2000
  | some m => m

/-! ## SetUnc (region.c:6227-6362) -/

/-- `astGetBounded` on an uncertainty Region. -/
def uncGetBounded (u : UncRegion) : Bool :=
  if u.negated then u.boundedWhenNeg else u.boundedWhenPos

/-- `astNegate` on an uncertainty Region. -/
def uncNegate (u : UncRegion) : UncRegion :=
  { u with negated := !u.negated }

/-- `astSetUnc( this, unc )` (region.c:6227): any existing uncertainty
Region is annulled and `defunc` set *before* the argument is validated
(region.c:6294-6296).  A usable uncertainty (Box, Circle or Ellipse,
the `astIsA*` class tests modelled by the class name) is then converted
into the base Frame of `this`; if conversion is impossible an
AST__BADIN/AST__NCPIN error is raised (region.c:6348-6354), and an
unusable class raises AST__BADIN (region.c:6357-6361).  On success the
mapped uncertainty is forced bounded by negation if necessary, its
RegionFS attribute is cleared when its base->current Mapping simplifies
to a UnitMap, and it is re-centred at the first defining point. -/
def setUnc (g : Geom) (thisR : AstRegion) (unc : Option UncRegion) :
    AstRegion × Option AstErrCode :=
  let this1 := { thisR with unc := none, defunc := true }
  match unc with
  | none => (this1, none)
  | some u =>
    if u.cls = "Box" || u.cls = "Circle" || u.cls = "Ellipse" then
      if g.uncConv u this1 then
        let u1 := g.uncMapInto u this1
        let u2 := if !uncGetBounded u1 then uncNegate u1 else u1
        let u3 := if g.uncBCUnit u2 then { u2 with regionfs := some false }
                  else u2
        let u4 := g.uncRecentre u3 this1.points
        ({ this1 with unc := some u4, defunc := false }, none)
      else (this1, some .badinNoConv)
    else (this1, some .badinClass)

/-! ## Mask<X> (the MAKE_MASK macro, region.c:3850-4107)

The macro generates one function per numeric element type; the model is
a single function polymorphic in the element type `T`.  `astResample<X>`
lives outside `src/` and is passed in as an oracle returning the count
of changed cells and the output array. -/

/-- C cast of a rational to `int`: truncation toward zero. -/
def cTrunc (q : ℚ) : Int :=
  if q < 0 then Int.ceil q else Int.floor q

/-- The part of Mask<X> from the grid-bounds validation onward
(region.c:3997-4093), run on the already-selected `used_region`:
validate `lbnd[i] <= ubnd[i]` on every axis (raising AST__GBDIN and
returning 0 with the data untouched otherwise); compute the current
Frame bounding box of the Region, convert it to integer grid bounds
expanded by 2 pixels and clipped to the supplied bounds; when the
outside of that box lies on the masked side, pre-fill an alternative
output array with `val` and count its `npix - npixg` outside pixels;
temporarily negate the Region when `inside` is set; and delegate the
in-box pixels to the `astResample` collaborator. -/
def maskCore {T : Type} (g : Geom)
    (resample : AstRegion → Nat → List Int → List Int → List Int →
      List Int → List T → T → Int × List T)
    (ur : AstRegion) (inside : Bool) (ndim : Nat)
    (lbnd ubnd : List Int) (din : List T) (val : T) :
    Int × List T × Option AstErrCode :=
  if (List.range ndim).any (fun i => lbnd.getD i 0 > ubnd.getD i 0) then
    (0, din, some .gbdin)
  else
    let box := g.regCurBox ur
    let lbndgd := box.1
    let ubndgd := box.2
    let lbndg := (List.range ndim).map (fun i =>
      max (lbnd.getD i 0) (cTrunc (lbndgd.getD i 0 + 1 / 2) - 2))
    let ubndg := (List.range ndim).map (fun i =>
      min (ubnd.getD i 0) (cTrunc (ubndgd.getD i 0 + 1 / 2) + 2))
    let npix := ((List.range ndim).map (fun i =>
      ubnd.getD i 0 - lbnd.getD i 0 + 1)).prod
    let npixg := ((List.range ndim).map (fun i =>
      ubndg.getD i 0 - lbndg.getD i 0 + 1)).prod
    let preFill := inside = astGetNegated ur
    let result0 : Int := if preFill then npix - npixg else 0
    let out0 : List T :=
      if preFill then List.replicate din.length val else din
    let ur2 := if inside then astNegate ur else ur
    let rr := resample ur2 ndim lbnd ubnd lbndg ubndg out0 val
    (result0 + rr.1, rr.2, none)

/-- `astMask<X>( this, map, inside, ndim, lbnd, ubnd, in, val )`
(region.c:3850): dimension validation of the optional Mapping
(region.c:3949-3994), construction of `used_region` (the Region mapped
into grid coordinates, or the Region itself), then the common core.
Returns the count of changed cells, the final data array and the error
code, if any. -/
def maskX {T : Type} (g : Geom)
    (resample : AstRegion → Nat → List Int → List Int → List Int →
      List Int → List T → T → Int × List T)
    (thisR : AstRegion) (map : Option AstMapping) (inside : Bool)
    (ndim : Nat) (lbnd ubnd : List Int) (din : List T) (val : T) :
    Int × List T × Option AstErrCode :=
  let nax := thisR.cframe.naxes
  match map with
  | some m =>
    if nax ≠ m.nin then (0, din, some .ngdinMapIn)
    else if ndim ≠ m.nout then (0, din, some .ngdinMapOut)
    else
      match mapRegionVal g thisR m { fid := 0, naxes := ndim } with
      | .error e => (0, din, some e)
      | .ok ur => maskCore g resample ur inside ndim lbnd ubnd din val
  | none =>
    if ndim ≠ nax ∨ ndim < 1 then (0, din, some .ngdinDims)
    else maskCore g resample thisR inside ndim lbnd ubnd din val

/-! ## Spec-side predicate for claim C3 -/

/-- The condition that the spec attaches to the first Overlap fast
path, written from the spec's words: same class, same defining points,
same base and current Frames, *a base-to-current Mapping reducing to
the identity*, and the same Negated and Closed flags. -/
def specEqualCond (a b : AstRegion) : Prop :=
  a.cls = b.cls ∧ a.points = b.points ∧ a.bframe = b.bframe ∧
    a.cframe = b.cframe ∧ a.bcmap.simplifiesToUnit = true ∧
    b.bcmap.simplifiesToUnit = true ∧
    astGetNegated a = astGetNegated b ∧ astGetClosed a = astGetClosed b

instance (a b : AstRegion) : Decidable (specEqualCond a b) := by
  unfold specEqualCond; infer_instance

/-! ## Concrete collaborator instances and objects

Used by witnesses and counterexamples.  The geometry oracle `gDefault`
realises: every pair of current Frames is inter-convertible, boundary
pinning never succeeds, and the mesh of the second Region lies entirely
inside the first Region exactly when the first Region is the Circle
(as happens for a genuine Circle/Box pair whose meshes sample each
other asymmetrically at finite MeshSize). -/

/-- A 2-dimensional Frame. -/
def frame2 : AstFrame := { fid := 1, naxes := 2 }

/-- A Mapping defining both directions that simplifies to a UnitMap. -/
def unitishMap : AstMapping :=
  { mid := 0, nin := 2, nout := 2, tranForward := true,
    tranInverse := true, simplifiesToUnit := true }

/-- A Mapping defining both directions that does not simplify to a
UnitMap (e.g. a ZoomMap). -/
def zoomishMap : AstMapping :=
  { mid := 7, nin := 2, nout := 2, tranForward := true,
    tranInverse := true, simplifiesToUnit := false }

/-- A Mapping with no inverse transformation. -/
def noInvMap : AstMapping :=
  { mid := 9, nin := 2, nout := 2, tranForward := true,
    tranInverse := false, simplifiesToUnit := false }

/-- A bounded 2-dimensional Circle-class Region. -/
def circleRegion : AstRegion :=
  { cls := "Circle", points := some { psid := 3 }, bframe := frame2,
    cframe := frame2, bcmap := unitishMap, negated := false,
    closed := true, meshsize := none, fillfactor := none,
    regionfs := none, basemesh := none, unc := none, defunc := true,
    boundedWhenPos := true, boundedWhenNeg := false,
    baseBox := [(0, 1), (0, 1)] }

/-- A bounded Box-class Region over the same Frames. -/
def boxRegion : AstRegion := { circleRegion with cls := "Box" }

/-- An Interval-class Region that is unbounded in both negation
polarities (no finite boundary). -/
def intervalRegion : AstRegion :=
  { circleRegion with
      cls := "Interval"
      boundedWhenPos := false
      boundedWhenNeg := false }

/-- A Region whose base->current Mapping does not simplify to a
UnitMap. -/
def zoomRegion : AstRegion := { circleRegion with bcmap := zoomishMap }

/-- A Box-class uncertainty Region. -/
def boxUnc : UncRegion :=
  { cls := "Box", negated := false, boundedWhenPos := true,
    boundedWhenNeg := false, regionfs := none }

/-- A Polygon-class uncertainty Region (not a usable uncertainty). -/
def polyUnc : UncRegion :=
  { cls := "Polygon", negated := false, boundedWhenPos := true,
    boundedWhenNeg := false, regionfs := none }

/-- A Region that already stores a (non-default) uncertainty. -/
def regionWithUnc : AstRegion :=
  { circleRegion with unc := some boxUnc, defunc := false }

/-- The concrete geometry oracle described above. -/
def gDefault : Geom :=
  { cmpMap := fun a _ => a,
    convert := fun _ _ => true,
    regPins := fun _ _ => false,
    meshFlags := fun r1 _ => if r1.cls = "Circle" then (true, false)
                             else (false, false),
    firstMeshPtBad := fun _ _ => false,
    axDist := fun _ _ a b => b - a,
    regCurBox := fun _ => ([], []),
    uncConv := fun _ _ => false,
    uncMapInto := fun u _ => u,
    uncBCUnit := fun _ => false,
    uncRecentre := fun u _ => u }

/-- A trivial resample collaborator for the Mask witnesses: changes
nothing and returns the output array it is given. -/
def rsSimple : AstRegion → Nat → List Int → List Int → List Int →
    List Int → List Int → Int → Int × List Int :=
  fun _ _ _ _ _ _ out _ => (0, out)

/-! ## Helper lemmas -/

theorem astNegate_astNegate (r : AstRegion) : astNegate (astNegate r) = r := by
  simp [astNegate, astGetNegated]

theorem astGetNegated_negate (r : AstRegion) :
    astGetNegated (astNegate r) = !astGetNegated r := rfl

theorem Equal_iff (a b : AstRegion) :
    Equal a b = true ↔
      (a.cls = b.cls ∧ a.points = b.points ∧ a.bframe = b.bframe ∧
       a.cframe = b.cframe ∧ a.bcmap = b.bcmap ∧
       astGetNegated a = astGetNegated b ∧
       astGetClosed a = astGetClosed b) := by
  unfold Equal
  split_ifs with h1 h2 h3 h4 h5 <;> simp_all

theorem Equal_refl (r : AstRegion) : Equal r r = true := by
  rw [Equal_iff]
  exact ⟨rfl, rfl, rfl, rfl, rfl, rfl, rfl⟩

theorem Equal_symm (a b : AstRegion) : Equal a b = Equal b a := by
  rw [Bool.eq_iff_iff, Equal_iff, Equal_iff]
  constructor <;> rintro ⟨h1, h2, h3, h4, h5, h6, h7⟩ <;>
    exact ⟨h1.symm, h2.symm, h3.symm, h4.symm, h5.symm, h6.symm, h7.symm⟩

theorem Equal_negate_self (r : AstRegion) : Equal r (astNegate r) = false := by
  rw [Bool.eq_false_iff]
  intro h
  have h2 := ((Equal_iff _ _).1 h).2.2.2.2.2.1
  rw [astGetNegated_negate] at h2
  exact absurd h2 (by simp)

theorem Equal_negate_symm (a b : AstRegion) :
    Equal (astNegate a) b = Equal (astNegate b) a := by
  rw [Bool.eq_iff_iff, Equal_iff, Equal_iff]
  simp only [astNegate, astGetNegated, astGetClosed]
  constructor <;> rintro ⟨h1, h2, h3, h4, h5, h6, h7⟩ <;>
    exact ⟨h1.symm, h2.symm, h3.symm, h4.symm, h5.symm,
      by rw [← h6, Bool.not_not], h7.symm⟩

theorem boundedProbe_eq (r : AstRegion) :
    boundedProbe r = (finiteBoundary r, r) := by
  unfold boundedProbe finiteBoundary
  by_cases h : astGetBounded r = true
  · simp [h]
  · simp [h, astNegate_astNegate]

theorem swap23_swap23 (r : Int) : swap23 (swap23 r) = r := by
  unfold swap23
  by_cases h2 : r = 2 <;> by_cases h3 : r = 3 <;> simp [h2, h3]

/-- Evaluated form of `overlapX`: the fast paths, then the core
classification with `reg1`, `reg2` chosen by the finite-boundary flags
and the 2/3 remapping applied when `reg1` is `that`; both argument
Regions come back in their original states. -/
theorem overlapX_eq (g : Geom) (thatR thisR : AstRegion) :
    overlapX g thatR thisR =
      (if Equal thisR thatR then 5
       else if Equal (astNegate thisR) thatR then 6
       else if !finiteBoundary thisR && !finiteBoundary thatR then 0
       else if finiteBoundary thatR then
         overlapCore g thisR thatR (finiteBoundary thisR)
       else
         swap23 (overlapCore g thatR thisR (finiteBoundary thatR)),
       thisR, thatR) := by
  unfold overlapX
  simp only [astNegate_astNegate, boundedProbe_eq]
  by_cases h1 : Equal thisR thatR = true
  · simp [h1]
  · by_cases h2 : Equal (astNegate thisR) thatR = true <;>
      by_cases h3 : finiteBoundary thisR = true <;>
      by_cases h4 : finiteBoundary thatR = true <;>
      simp [h1, h2, h3, h4]

/-! ## Claim theorems -/

/-- C1: for every Region `R` (with the global error status clear, the
modelled execution path), `astOverlap(R, R)` returns 5,
`astOverlap(R, negate(R))` returns 6, and after the latter call the
first argument comes back with its Negated attribute (indeed its whole
state) restored to the original value. -/
theorem overlap_self_consistency (g : Geom) (R : AstRegion) :
    (astOverlap g R R).1 = 5 ∧
      (astOverlap g R (astNegate R)).1 = 6 ∧
      (astOverlap g R (astNegate R)).2.1 = R := by
  unfold astOverlap
  rw [overlapX_eq, overlapX_eq]
  refine ⟨by simp [Equal_refl], ?_, by simp⟩
  have h1 : Equal R (astNegate R) = false := Equal_negate_self R
  have h2 : Equal (astNegate R) (astNegate R) = true := Equal_refl _
  simp [h1, h2]

/-- C2 (amended): swapping the two arguments of `astOverlap` exchanges
the result codes 2 and 3 and fixes every other code, provided at most
one of the two Regions has a finite boundary; in that case the two
calls select the same `reg1`/`reg2` pair and run the identical core
classification, one of them followed by the 2/3 remapping. -/
theorem overlap_swap_symmetry (g : Geom) (A B : AstRegion)
    (h : ¬(finiteBoundary A = true ∧ finiteBoundary B = true)) :
    (astOverlap g B A).1 = swap23 ((astOverlap g A B).1) := by
  unfold astOverlap
  rw [overlapX_eq, overlapX_eq]
  by_cases h1 : Equal A B = true
  · have h1s : Equal B A = true := by rw [← Equal_symm]; exact h1
    simp [h1, h1s, swap23]
  · have h1s : Equal B A = false := by
      rw [← Equal_symm]; exact Bool.eq_false_iff.2 h1
    by_cases h2 : Equal (astNegate A) B = true
    · have h2s : Equal (astNegate B) A = true := by
        rw [Equal_negate_symm]; exact h2
      simp [h1, h1s, h2, h2s, swap23]
    · have h2s : Equal (astNegate B) A = false := by
        rw [Equal_negate_symm]; exact Bool.eq_false_iff.2 h2
      by_cases h3 : finiteBoundary A = true <;>
        by_cases h4 : finiteBoundary B = true
      · exact absurd ⟨h3, h4⟩ h
      · simp [h1, h1s, h2, Bool.eq_false_iff.2 h2, h2s, h3, h4,
          swap23_swap23]
      · simp [h1, h1s, h2, Bool.eq_false_iff.2 h2, h2s, h3, h4]
      · simp [h1, h1s, h2, Bool.eq_false_iff.2 h2, h2s, h3, h4, swap23]

/-- C2 witness: a bounded Circle against an Interval with no finite
boundary; the swap relation holds. -/
theorem overlap_swap_symmetry_witness :
    (astOverlap gDefault intervalRegion circleRegion).1 =
      swap23 ((astOverlap gDefault circleRegion intervalRegion).1) :=
  overlap_swap_symmetry gDefault circleRegion intervalRegion (by decide)

/-- C2 counterexample: when both Regions have finite boundaries the two
argument orders mesh different Regions, and a mesh configuration in
which the mesh of the Box lies entirely inside the Circle while the
mesh of the Circle is partly outside the Box (possible at finite
MeshSize) gives `astOverlap(circle, box) = 3` but
`astOverlap(box, circle) = 4`, breaking the claimed 2/3-swap relation. -/
theorem overlap_swap_symmetry_cex :
    ¬((astOverlap gDefault boxRegion circleRegion).1 =
        swap23 ((astOverlap gDefault circleRegion boxRegion).1)) := by
  decide

/-- C3 (amended): the first Overlap fast path is taken, returning 5,
exactly when the private `Equal` holds, i.e. when the two Regions have
the same class, equal defining point sets, equal base Frames, equal
current Frames, *equal* base-to-current Mappings (they need not reduce
to the identity), and the same effective Negated and Closed flags. -/
theorem overlap_fast_path_equal (g : Geom) (a b : AstRegion) :
    (Equal a b = true ↔
      (a.cls = b.cls ∧ a.points = b.points ∧ a.bframe = b.bframe ∧
       a.cframe = b.cframe ∧ a.bcmap = b.bcmap ∧
       astGetNegated a = astGetNegated b ∧
       astGetClosed a = astGetClosed b)) ∧
      (Equal a b = true → (astOverlap g a b).1 = 5) := by
  refine ⟨Equal_iff a b, fun h => ?_⟩
  unfold astOverlap
  rw [overlapX_eq]
  simp [h]

/-- C3 witness: applying the fast-path theorem to a concrete Region
pair. -/
theorem overlap_fast_path_equal_witness :
    (astOverlap gDefault circleRegion circleRegion).1 = 5 :=
  (overlap_fast_path_equal gDefault circleRegion circleRegion).2 (by decide)

/-- C3 counterexample: a Region whose base-to-current Mapping is a
ZoomMap (it does not reduce to the identity) is `Equal` to itself, so
Overlap takes the first fast path and returns 5 even though the
condition stated by the claim (Mapping reducing to the identity) is
violated. -/
theorem overlap_fast_path_equal_cex :
    Equal zoomRegion zoomRegion = true ∧
      (astOverlap gDefault zoomRegion zoomRegion).1 = 5 ∧
      ¬specEqualCond zoomRegion zoomRegion := by
  refine ⟨by decide, ?_, by decide⟩
  decide

/-- C4: whenever the supplied Mapping lacks a forward or an inverse
transformation, `astMapRegion` raises the corresponding AST__NODEF
missing-transform-direction error and returns no Region (NULL). -/
theorem mapRegion_missing_direction (g : Geom) (thisR : AstRegion)
    (map : AstMapping) (frame : AstFrame)
    (h : map.tranForward = false ∨ map.tranInverse = false) :
    mapRegionVal g thisR map frame =
      Except.error
        (if map.tranInverse then AstErrCode.nodefForward
         else AstErrCode.nodefInverse) := by
  rcases h with hf | hi
  · by_cases hi2 : map.tranInverse = true <;>
      simp [mapRegionVal, hf, hi2]
  · simp [mapRegionVal, hi]

/-- C4 witness: a Mapping with no inverse transformation. -/
theorem mapRegion_missing_direction_witness :
    mapRegionVal gDefault circleRegion noInvMap frame2 =
      Except.error AstErrCode.nodefInverse := by
  have h := mapRegion_missing_direction gDefault circleRegion noInvMap
    frame2 (Or.inr rfl)
  simpa using h

/-- C6: with a usable Mapping, `astMapRegion` allocates a fresh object
holding a deep copy of the input Region with the FrameSet surgery
applied (new current Frame, composed base->current Mapping, RegionFS
set), the input object is unchanged on the heap, and the returned
object is a fresh slot distinct from the input, so the two share no
mutable state. -/
theorem mapRegion_deep_copy (g : Geom) (s : Store) (i : Nat)
    (map : AstMapping) (frame : AstFrame) (thisR : AstRegion)
    (hget : List.get? s i = some thisR)
    (hf : map.tranForward = true) (hinv : map.tranInverse = true) :
    mapRegionStore g s i map frame =
      (List.append s
        [{ thisR with
            cframe := frame
            bcmap := g.cmpMap thisR.bcmap map
            regionfs := some true }],
       Except.ok (List.length s)) ∧
      List.get? (mapRegionStore g s i map frame).1 i = some thisR ∧
      i ≠ List.length s := by
  have hlt : i < List.length s := by
    rcases List.get?_eq_some.1 hget with ⟨hl, _⟩
    exact hl
  have hmain : mapRegionStore g s i map frame =
      (List.append s
        [{ thisR with
            cframe := frame
            bcmap := g.cmpMap thisR.bcmap map
            regionfs := some true }],
       Except.ok (List.length s)) := by
    unfold mapRegionStore
    rw [hget]
    simp [mapRegionVal, hf, hinv]
  refine ⟨hmain, ?_, Nat.ne_of_lt hlt⟩
  rw [hmain]
  simpa using (List.get?_append hlt).trans hget

/-- C6 witness: mapping a concrete Region held in a one-object heap. -/
theorem mapRegion_deep_copy_witness :
    List.get? (mapRegionStore gDefault [circleRegion] 0 unitishMap
      frame2).1 0 = some circleRegion ∧
      (0 : Nat) ≠ List.length [circleRegion] :=
  ⟨(mapRegion_deep_copy gDefault [circleRegion] 0 unitishMap frame2
      circleRegion rfl rfl rfl).2.1,
   (mapRegion_deep_copy gDefault [circleRegion] 0 unitishMap frame2
      circleRegion rfl rfl rfl).2.2⟩

/-- C7: `astSetFillFactor` with a value outside [0,1] raises the
AST__ATSER value-range error and leaves the Region (in particular its
stored fillfactor) unchanged, and `astGetFillFactor` yields the default
1.0 whenever the attribute is unset. -/
theorem fillFactor_range_and_default (r : AstRegion) (v : ℚ) :
    ((v < 0 ∨ 1 < v) →
        setFillFactor r v = (r, some AstErrCode.atser)) ∧
      (r.fillfactor = none → getFillFactor r = 1) := by
  constructor
  · intro h
    have hb : (v < 0 || v > 1) = true := by
      rcases h with h | h <;> simp [h]
    simp [setFillFactor, hb]
  · intro h
    simp [getFillFactor, h]

/-- C7 witness: the value 2 is rejected without changing the Region,
and the unset attribute reads as 1. -/
theorem fillFactor_range_and_default_witness :
    setFillFactor circleRegion 2 = (circleRegion, some AstErrCode.atser) ∧
      getFillFactor circleRegion = 1 :=
  ⟨(fillFactor_range_and_default circleRegion 2).1 (Or.inr (by norm_num)),
   (fillFactor_range_and_default circleRegion 2).2 rfl⟩

/-- C8: with the MeshSize attribute unset, `astGetMeshSize` returns 2
for a 1-dimensional Region, 200 for a 2-dimensional Region and 2000
otherwise (three or more dimensions); `astSetMeshSize` stores 5 for any
supplied value below 5 and stores larger values unchanged. -/
theorem meshSize_default_and_min (r : AstRegion) (v : Int) :
    (r.meshsize = none →
        getMeshSize r =
          (if r.cframe.naxes = 1 then 2
           else if r.cframe.naxes = 2 then 200 else 2000)) ∧
      (setMeshSize r v).meshsize = some (if v < 5 then 5 else v) := by
  constructor
  · intro h
    simp [getMeshSize, h]
  · simp only [setMeshSize]
    congr 1
    by_cases h5 : v > 5 <;> by_cases h5' : v < 5 <;>
      simp [h5, h5'] <;> omega

/-- C8 witness: a 2-dimensional Region with MeshSize unset reads 200,
and setting 3 stores 5. -/
theorem meshSize_default_and_min_witness :
    getMeshSize circleRegion = 200 ∧
      (setMeshSize circleRegion 3).meshsize = some 5 := by
  constructor
  · have h := (meshSize_default_and_min circleRegion 3).1 rfl
    simpa using h
  · have h := (meshSize_default_and_min circleRegion 3).2
    simpa using h

/-- C5: the default uncertainty Box returned by `astGetDefUnc` lives in
the base Frame of the Region, is centred on the origin, has half-width
`5e-7` of the base-frame bounding-box extent on every axis, and its
squared bounding-box diagonal is exactly `(1e-6)^2` times the squared
bounding-box diagonal of the parent Region (doubles modelled as exact
rationals). -/
theorem getDefUnc_shrink (g : Geom) (r : AstRegion) :
    (getDefUnc g r).1 = r.bframe ∧
      (getDefUnc g r).2.1 = List.replicate r.bframe.naxes 0 ∧
      (getDefUnc g r).2.2 =
        (List.range r.bframe.naxes).map
          (fun i => (5 / 10000000 : ℚ) * axExtent g r i) ∧
      boxDiagSq (getDefUnc g r) =
        (1 / 1000000 : ℚ) ^ 2 * regionBaseDiagSq g r := by
  refine ⟨rfl, ?_, ?_, ?_⟩
  · simp [getDefUnc]
  · have hc : (5 / 10000000 : ℚ) = 1 / 2000000 := by norm_num
    simp only [getDefUnc, axExtent, hc]
  · simp only [boxDiagSq, getDefUnc, regionBaseDiagSq, List.zip_map',
      List.map_map]
    rw [← List.sum_map_mul_left]
    congr 1
    apply List.map_congr_left
    intro i _
    simp only [Function.comp_apply, axExtent]
    ring_nf

/-- C9: whenever the dimension checks pass (so that execution reaches
the grid-bounds validation) and some axis has a lower grid bound
exceeding its upper bound, `astMask<X>` raises the AST__GBDIN
invalid-bounds error, returns 0, and hands back the data array
unchanged. -/
theorem mask_invalid_bounds {T : Type} (g : Geom)
    (resample : AstRegion → Nat → List Int → List Int → List Int →
      List Int → List T → T → Int × List T)
    (thisR : AstRegion) (map : Option AstMapping) (inside : Bool)
    (ndim : Nat) (lbnd ubnd : List Int) (din : List T) (val : T)
    (hdims : match map with
      | some m => thisR.cframe.naxes = m.nin ∧ ndim = m.nout ∧
          m.tranInverse = true ∧ m.tranForward = true
      | none => ndim = thisR.cframe.naxes ∧ 1 ≤ ndim)
    (hbad : (List.range ndim).any
        (fun i => lbnd.getD i 0 > ubnd.getD i 0) = true) :
    maskX g resample thisR map inside ndim lbnd ubnd din val =
      (0, din, some AstErrCode.gbdin) := by
  have hcore : ∀ ur : AstRegion,
      maskCore g resample ur inside ndim lbnd ubnd din val =
        (0, din, some AstErrCode.gbdin) := by
    intro ur
    unfold maskCore
    rw [if_pos hbad]
  match map with
  | some m =>
    obtain ⟨h1, h2, h3, h4⟩ := hdims
    have hn1 : ¬thisR.cframe.naxes ≠ m.nin := fun hc => hc h1
    have hn2 : ¬ndim ≠ m.nout := fun hc => hc h2
    have hmr : mapRegionVal g thisR m { fid := 0, naxes := ndim } =
        Except.ok { thisR with
                      cframe := { fid := 0, naxes := ndim }
                      bcmap := g.cmpMap thisR.bcmap m
                      regionfs := some true } := by
      simp [mapRegionVal, h3, h4]
    simp only [maskX]
    rw [if_neg hn1, if_neg hn2, hmr]
    exact hcore _
  | none =>
    obtain ⟨h1, h2⟩ := hdims
    have hnd : ¬(ndim ≠ thisR.cframe.naxes ∨ ndim < 1) := by
      push_neg
      exact ⟨h1, h2⟩
    simp only [maskX]
    rw [if_neg hnd]
    exact hcore _

/-- C9 witness: a 2-dimensional mask call whose first axis has lower
bound 3 above upper bound 1 fails with the invalid-bounds error and
leaves the data array `[7]` untouched. -/
theorem mask_invalid_bounds_witness :
    maskX gDefault rsSimple circleRegion none true 2 [3, 0] [1, 5]
        [(7 : Int)] (-1) = (0, [(7 : Int)], some AstErrCode.gbdin) :=
  mask_invalid_bounds gDefault rsSimple circleRegion none true 2 [3, 0]
    [1, 5] [(7 : Int)] (-1) (by exact ⟨rfl, by norm_num⟩) (by decide)

/-- C10: `astSetUnc` annuls the stored uncertainty and marks it
defaulted before validating; hence on either failure path (uncertainty
not a Box, Circle or Ellipse, or no Frame conversion possible) the
Region is left with no stored uncertainty and `defunc` set, and an
error is reported: the previous uncertainty is not retained. -/
theorem setUnc_error_path_state (g : Geom) (thisR : AstRegion)
    (u : UncRegion)
    (hfail : ¬(u.cls = "Box" ∨ u.cls = "Circle" ∨ u.cls = "Ellipse") ∨
      g.uncConv u { thisR with unc := none, defunc := true } = false) :
    (setUnc g thisR (some u)).1.unc = none ∧
      (setUnc g thisR (some u)).1.defunc = true ∧
      (setUnc g thisR (some u)).2 ≠ none := by
  rcases hfail with hc | hconv
  · have hb : (u.cls = "Box" || u.cls = "Circle" || u.cls = "Ellipse")
        = false := by
      push_neg at hc
      simp [hc.1, hc.2.1, hc.2.2]
    simp [setUnc, hb]
  · by_cases hb : (u.cls = "Box" || u.cls = "Circle" ||
        u.cls = "Ellipse") = true
    · simp [setUnc, hb, hconv]
    · simp [setUnc, Bool.eq_false_iff.2 hb]

/-- C10 witness: a Region holding a Box uncertainty loses it when a
Polygon is supplied as the new uncertainty. -/
theorem setUnc_error_path_state_witness :
    (setUnc gDefault regionWithUnc (some polyUnc)).1.unc = none ∧
      (setUnc gDefault regionWithUnc (some polyUnc)).1.defunc = true ∧
      (setUnc gDefault regionWithUnc (some polyUnc)).2 ≠ none :=
  setUnc_error_path_state gDefault regionWithUnc polyUnc
    (Or.inl (by decide))

end StarAst
